import Mathlib

/-!
Verification of the AC light control dimmer (ac_light_control.ino).

The embedding models the sketch's globals and routines shallowly:
machine `unsigned long` arithmetic is `Nat` with explicit `% 2 ^ 32`
where wraparound matters, pin writes and the settle delay become an
explicit list of `Action`s, and the interrupt handlers and the main
loop become pure state transformers over `SysState`.
-/

set_option maxRecDepth 8000

namespace ACLight

/-- Width of the AVR `unsigned long` type: timestamps, counters and the
step duration wrap modulo `2 ^ 32`. -/
def u32 : Nat := 2 ^ 32

/-- `unsigned long int DimRes = 256`: how many steps of dimmer resolution. -/
def DimRes : Nat := 256

/-- `unsigned long int PeriodResync = 3000`: number of milliseconds between
line frequency measurements. -/
def PeriodResync : Nat := 3000

/-- `byte TriacPin[4] = {3,5,6,7}`: which digital IO pins drive the triacs. -/
def TriacPin : List Nat := [3, 5, 6, 7]

/-- `byte PowerMap[256]`: the precomputed power curve table, copied verbatim
from the source. -/
def PowerMap : List Nat := [
  255, 245, 241, 237, 235, 232, 230, 228, 226, 224, 223, 221, 220, 218, 217, 215,
  214, 213, 211, 210, 209, 208, 207, 205, 204, 203, 202, 201, 200, 199, 198, 197,
  196, 195, 194, 193, 192, 192, 191, 190, 189, 188, 187, 186, 185, 185, 184, 183,
  182, 181, 181, 180, 179, 178, 177, 177, 176, 175, 174, 174, 173, 172, 171, 171,
  170, 169, 168, 168, 167, 166, 165, 165, 164, 163, 163, 162, 161, 161, 160, 159,
  158, 158, 157, 156, 156, 155, 154, 154, 153, 152, 152, 151, 150, 150, 149, 148,
  148, 147, 146, 146, 145, 144, 144, 143, 143, 142, 141, 141, 140, 139, 139, 138,
  137, 137, 136, 135, 135, 134, 134, 133, 132, 132, 131, 130, 130, 129, 128, 128,
  127, 127, 126, 125, 125, 124, 123, 123, 122, 121, 121, 120, 120, 119, 118, 118,
  117, 116, 116, 115, 114, 114, 113, 112, 112, 111, 111, 110, 109, 109, 108, 107,
  107, 106, 105, 105, 104, 103, 103, 102, 101, 101, 100, 99, 99, 98, 97, 97,
  96, 95, 94, 94, 93, 92, 92, 91, 90, 90, 89, 88, 87, 87, 86, 85,
  84, 84, 83, 82, 81, 81, 80, 79, 78, 78, 77, 76, 75, 74, 74, 73,
  72, 71, 70, 70, 69, 68, 67, 66, 65, 64, 63, 63, 62, 61, 60, 59,
  58, 57, 56, 55, 54, 53, 52, 51, 50, 48, 47, 46, 45, 44, 42, 41,
  40, 38, 37, 35, 34, 32, 31, 29, 27, 25, 23, 20, 18, 14, 10, 0]

/-- The table lookup `PowerMap[i]`. -/
def powerMapAt (i : Nat) : Nat := PowerMap.getD i 0

lemma powerMap_length : PowerMap.length = 256 := by decide

lemma powerMap_adjacent : ∀ i : Fin 255, powerMapAt (i.1 + 1) ≤ powerMapAt i.1 := by decide

lemma powerMap_antitone : ∀ j i, i ≤ j → j ≤ 255 → powerMapAt j ≤ powerMapAt i := by
  intro j
  induction j with
  | zero =>
      intro i hij _
      have : i = 0 := Nat.le_zero.mp hij
      simp [this]
  | succ n ih =>
      intro i hij hj
      rcases Nat.lt_or_ge i (n + 1) with hlt | hge
      · have hstep : powerMapAt (n + 1) ≤ powerMapAt n :=
          powerMap_adjacent ⟨n, by omega⟩
        exact le_trans hstep (ih i (by omega) (by omega))
      · have : i = n + 1 := by omega
        simp [this]

/-- C4: the power curve table is monotonically non-increasing: for input
levels `L1 < L2` in `[0, Resolution - 1]`, `PowerMap[L1] ≥ PowerMap[L2]`. -/
theorem powerMap_monotone_nonincreasing (L1 L2 : Nat) (h1 : L1 < L2)
    (h2 : L2 ≤ DimRes - 1) : powerMapAt L1 ≥ powerMapAt L2 :=
  powerMap_antitone L2 L1 (Nat.le_of_lt h1) (by simpa [DimRes] using h2)

/-- Witness for C4 at the concrete levels 3 and 255. -/
theorem powerMap_monotone_nonincreasing_witness :
    (3 < 255 ∧ 255 ≤ DimRes - 1) ∧ powerMapAt 3 ≥ powerMapAt 255 :=
  ⟨by decide, powerMap_monotone_nonincreasing 3 255 (by decide) (by decide)⟩

/-- C3 counterexample: the claimed endpoint pair fails, because
`PowerMap[0] = 255`, not `Resolution = 256`. -/
theorem powerMap_endpoints_counterexample :
    ¬ (powerMapAt (DimRes - 1) = 0 ∧ powerMapAt 0 = DimRes) := by decide

/-- C3 amended: the endpoints satisfy `PowerMap[255] = 0` (full power, zero
delay) and `PowerMap[0] = Resolution - 1 = 255` (the table is a byte table,
so the lowest level maps to the largest delay step 255, not to
`Resolution`; the never-fires value is not produced). -/
theorem powerMap_endpoints :
    powerMapAt (DimRes - 1) = 0 ∧ powerMapAt 0 = DimRes - 1 := by decide

/-- One observable output effect of the triac actuator: a `digitalWrite`
on a pin or the fixed `delayMicroseconds` settle delay. -/
inductive Action where
  | setHigh (pin : Nat)
  | setLow (pin : Nat)
  | delayMicros (n : Nat)
  deriving DecidableEq

/-- `fire_triac(TriacNum)`: with `f` the commanded fire step
`FireTriac[TriacNum]`, `c` the shared `DimStepCounter` and `pin` the
output pin `TriacPin[TriacNum]`, the list of output actions the call
performs, in program order. -/
def fire_triac (f c pin : Nat) : List Action :=
  if f = c then
    (if f ≠ DimRes then [Action.setHigh pin] else []) ++
    (if f ≠ DimRes ∧ f ≠ 0 then [Action.delayMicros 2] else []) ++
    (if f ≠ 0 then [Action.setLow pin] else [])
  else []

/-- C1: when the commanded fire step `s` (in the fire step range
`[0, Resolution]`) equals the step counter, the actuator behaves as the
four-way case split of the source: it asserts the line unless
`s = Resolution`, inserts the 2 microsecond settle delay exactly when
`0 < s < Resolution`, and de-asserts the line unless `s = 0`; when the
fire step differs from the counter, no output transition occurs. -/
theorem fire_triac_case_split (s c pin : Nat) (hs : s ≤ DimRes) :
    (s = c → fire_triac s c pin =
      (if s ≠ DimRes then [Action.setHigh pin] else []) ++
      (if 0 < s ∧ s < DimRes then [Action.delayMicros 2] else []) ++
      (if s ≠ 0 then [Action.setLow pin] else [])) ∧
    (s ≠ c → fire_triac s c pin = []) := by
  constructor
  · intro h
    subst h
    have hiff : (s ≠ DimRes ∧ s ≠ 0) ↔ (0 < s ∧ s < DimRes) := by
      unfold DimRes at *
      omega
    simp only [fire_triac, if_pos rfl]
    rw [if_congr hiff rfl rfl]
    simp
  · intro h
    simp [fire_triac, h]

/-- Witness for C1 at the mid-range step 5 (pulse plus settle delay) and at
a non-matching counter (no transitions). -/
theorem fire_triac_case_split_witness :
    fire_triac 5 5 3 = [Action.setHigh 3, Action.delayMicros 2, Action.setLow 3] ∧
    fire_triac 5 6 3 = [] := by
  constructor
  · have h := (fire_triac_case_split 5 5 3 (by decide)).1 rfl
    simpa using h
  · exact (fire_triac_case_split 5 6 3 (by decide)).2 (by decide)

/-- Wrapping subtraction of two 32-bit unsigned values, both below
`2 ^ 32`, as the AVR computes `ZeroXTime[i+1] - ZeroXTime[i]`. -/
def usub (a b : Nat) : Nat := (a + u32 - b) % u32

/-- The step duration `DimStep` computed by `measure_half_period` from the
four recorded timestamps: the sum of the three consecutive deltas divided
by 3 and then by `DimRes`, in 32-bit unsigned arithmetic. -/
def dimStepOf (t0 t1 t2 t3 : Nat) : Nat :=
  (((usub t1 t0 + usub t2 t1 + usub t3 t2) % u32) / 3) / DimRes

/-- The values `measure_half_period()` leaves behind: the recorded
timestamps, the new `DimStep`, the interval handed to
`Timer1.attachInterrupt`, and the new resync deadline `ResetPeriod`. -/
structure MeasureResult where
  zeroXTime : List Nat
  dimStep : Nat
  timerInterval : Nat
  resetPeriod : Nat

/-- `measure_half_period()`, given the four zero cross timestamps observed
while blocking and the previous value of `ResetPeriod`. -/
def measure_half_period (t0 t1 t2 t3 resetPeriod : Nat) : MeasureResult :=
  let d := dimStepOf t0 t1 t2 t3
  { zeroXTime := [t0, t1, t2, t3]
    dimStep := d
    timerInterval := d
    resetPeriod := (resetPeriod + PeriodResync) % u32 }

/-- C2: for ordered timestamps below `2 ^ 32`, the derived step duration is
the integer mean of the three consecutive deltas divided by `Resolution`,
and the timer is reprogrammed to exactly that interval. -/
theorem measure_half_period_mean (t0 t1 t2 t3 rp : Nat)
    (h01 : t0 ≤ t1) (h12 : t1 ≤ t2) (h23 : t2 ≤ t3) (hlt : t3 < u32) :
    (measure_half_period t0 t1 t2 t3 rp).dimStep =
      (((t1 - t0) + (t2 - t1) + (t3 - t2)) / 3) / DimRes ∧
    (measure_half_period t0 t1 t2 t3 rp).timerInterval =
      (measure_half_period t0 t1 t2 t3 rp).dimStep := by
  refine ⟨?_, rfl⟩
  show dimStepOf t0 t1 t2 t3 = _
  unfold dimStepOf usub u32 DimRes
  unfold u32 at hlt
  omega

/-- Witness for C2 at the timestamps 0, 8333, 16666, 25000 microseconds:
the step duration is 32 microseconds. -/
theorem measure_half_period_mean_witness :
    (measure_half_period 0 8333 16666 25000 0).dimStep = 32 := by
  have h := (measure_half_period_mean 0 8333 16666 25000 0 (by decide)
    (by decide) (by decide) (by decide)).1
  rw [h]
  decide

/-- The global mutable state of the sketch read and written by the
embedded routines. -/
structure SysState where
  FireTriac : List Nat
  DimStepCounter : Nat
  DimStep : Nat
  ResetPeriod : Nat
  timerInterval : Nat
  zero_cross : Bool

/-- `zero_cross_detect()`: the zero crossing interrupt handler raises the
`zero_cross` flag and resets `DimStepCounter` to 0. -/
def zero_cross_detect (s : SysState) : SysState :=
  { s with zero_cross := true, DimStepCounter := 0 }

/-- `fire_triacs()`: the Timer1 tick evaluates all four channels against
the same `DimStepCounter` value and only afterwards increments the
counter. -/
def fire_triacs (s : SysState) : SysState × List Action :=
  ( { s with DimStepCounter := (s.DimStepCounter + 1) % u32 },
    fire_triac (s.FireTriac.getD 0 0) s.DimStepCounter (TriacPin.getD 0 0) ++
    fire_triac (s.FireTriac.getD 1 0) s.DimStepCounter (TriacPin.getD 1 0) ++
    fire_triac (s.FireTriac.getD 2 0) s.DimStepCounter (TriacPin.getD 2 0) ++
    fire_triac (s.FireTriac.getD 3 0) s.DimStepCounter (TriacPin.getD 3 0) )

/-- The effect of `measure_half_period()` on the global state, given the
four zero cross timestamps it observes while blocking. -/
def measureState (t0 t1 t2 t3 : Nat) (s : SysState) : SysState :=
  let r := measure_half_period t0 t1 t2 t3 s.ResetPeriod
  { s with zero_cross := false
           DimStep := r.dimStep
           timerInterval := r.timerInterval
           ResetPeriod := r.resetPeriod }

/-- The table index `(DimRes * r) / 1024` that the main loop computes from
a raw `analogRead` sample `r`. -/
def scaledIndex (r : Nat) : Nat := (DimRes * r) / 1024

/-- One iteration of `loop()`. `now` is the value of `millis()` at the
resync check; `t0 t1 t2 t3` are the zero cross timestamps a triggered
remeasurement would observe; `analogRead k c` is the value returned by the
k-th call to `analogRead(c)` within this iteration. The body remeasures
when the deadline has passed, publishes the four fire steps from the two
physical input channels read in the order 0, 1, 0, 1, and finally executes
the trailing `DimStepCounter++`. -/
def loop (now t0 t1 t2 t3 : Nat) (analogRead : Nat → Nat → Nat)
    (s : SysState) : SysState :=
  let s1 := if s.ResetPeriod ≤ now then measureState t0 t1 t2 t3 s else s
  let s2 := { s1 with FireTriac :=
    [ powerMapAt (scaledIndex (analogRead 0 0)),
      powerMapAt (scaledIndex (analogRead 0 1)),
      powerMapAt (scaledIndex (analogRead 1 0)),
      powerMapAt (scaledIndex (analogRead 1 1)) ] }
  { s2 with DimStepCounter := (s2.DimStepCounter + 1) % u32 }

/-- A sample global state used to instantiate theorems at concrete
inputs. -/
def sampleState : SysState :=
  { FireTriac := [128, 128, 128, 128], DimStepCounter := 5, DimStep := 32,
    ResetPeriod := 3000, timerInterval := 32, zero_cross := false }

/-- Modelled from the spec for comparison: the claimed deadline rule, next
resynchronization deadline = current time at completion of the measurement
plus `PeriodResync`. -/
def specResyncDeadline (completionMillis : Nat) : Nat :=
  completionMillis + PeriodResync

/-- C5 counterexample: a measurement whose four crossings lie at
10000000..10025000 microseconds completes no earlier than 10025
milliseconds of uptime, yet starting from the deadline 3000 the code sets
the next deadline to 6000, while the claimed rule gives 13025. -/
theorem resync_deadline_counterexample :
    (measure_half_period 10000000 10008333 10016666 10025000 3000).resetPeriod = 6000 ∧
    specResyncDeadline 10025 = 13025 ∧ (6000 : Nat) ≠ 13025 := by
  refine ⟨?_, by decide, by decide⟩
  show (3000 + PeriodResync) % u32 = 6000
  decide

/-- C5 amended: after a loop iteration the resync deadline is the previous
deadline plus `PeriodResync` (mod `2 ^ 32`) exactly when the remeasurement
was triggered, which happens exactly when `millis()` has reached the old
deadline; otherwise the deadline is unchanged, so the blocking
remeasurement runs only when wall-clock time crosses the stored
deadline. -/
theorem resync_deadline_amended (now t0 t1 t2 t3 : Nat)
    (analogRead : Nat → Nat → Nat) (s : SysState) :
    (loop now t0 t1 t2 t3 analogRead s).ResetPeriod =
      if s.ResetPeriod ≤ now then (s.ResetPeriod + PeriodResync) % u32
      else s.ResetPeriod := by
  by_cases h : s.ResetPeriod ≤ now <;>
    simp [loop, measureState, measure_half_period, h]

/-- C6: the non-interrupt main loop also writes the shared step counter:
with `millis() = 0` below the deadline 3000 (so no remeasurement and no
interrupt producer involved), one `loop()` iteration moves
`DimStepCounter` from 5 to 6 through the trailing `DimStepCounter++`,
while the interrupt producers behave as described (the zero cross handler
resets the counter, the tick increments it once). -/
theorem loop_writes_DimStepCounter :
    (loop 0 0 0 0 0 (fun _ _ => 512) sampleState).DimStepCounter = 6 ∧
    (zero_cross_detect sampleState).DimStepCounter = 0 ∧
    (fire_triacs sampleState).1.DimStepCounter = 6 := by
  refine ⟨?_, by rfl, ?_⟩ <;> · show (5 + 1) % u32 = 6; decide

/-- C8: for every raw input sample in the contracted range 0..1023, the
scaled table index lies in `[0, Resolution - 1]` and hence within the
bounds of the 256-entry `PowerMap` table. -/
theorem scaledIndex_in_bounds (r : Nat) (h : r ≤ 1023) :
    scaledIndex r ≤ DimRes - 1 ∧ scaledIndex r < PowerMap.length := by
  have h1 : scaledIndex r ≤ 255 := by
    unfold scaledIndex DimRes
    omega
  refine ⟨by simpa [DimRes] using h1, ?_⟩
  rw [powerMap_length]
  omega

/-- Witness for C8 at the maximal raw sample 1023. -/
theorem scaledIndex_in_bounds_witness :
    (1023 ≤ 1023) ∧
      (scaledIndex 1023 ≤ DimRes - 1 ∧ scaledIndex 1023 < PowerMap.length) :=
  ⟨by decide, scaledIndex_in_bounds 1023 (by decide)⟩

/-- C9: logical channels 0 and 2 are computed from physical input channel
0 and logical channels 1 and 3 from physical input channel 1; if the two
reads of each physical channel within one iteration agree, the published
fire steps agree pairwise. -/
theorem channel_pairing (now t0 t1 t2 t3 : Nat)
    (analogRead : Nat → Nat → Nat) (s : SysState)
    (h : ∀ c, analogRead 0 c = analogRead 1 c) :
    ((loop now t0 t1 t2 t3 analogRead s).FireTriac.getD 0 0 =
      (loop now t0 t1 t2 t3 analogRead s).FireTriac.getD 2 0) ∧
    ((loop now t0 t1 t2 t3 analogRead s).FireTriac.getD 1 0 =
      (loop now t0 t1 t2 t3 analogRead s).FireTriac.getD 3 0) := by
  constructor
  · simp [loop]
    rw [h 0]
  · simp [loop]
    rw [h 1]

/-- Witness for C9 with reads that depend only on the physical channel. -/
theorem channel_pairing_witness :
    ((loop 0 0 0 0 0 (fun _ c => 100 * c) sampleState).FireTriac.getD 0 0 =
      (loop 0 0 0 0 0 (fun _ c => 100 * c) sampleState).FireTriac.getD 2 0) ∧
    ((loop 0 0 0 0 0 (fun _ c => 100 * c) sampleState).FireTriac.getD 1 0 =
      (loop 0 0 0 0 0 (fun _ c => 100 * c) sampleState).FireTriac.getD 3 0) :=
  channel_pairing 0 0 0 0 0 (fun _ c => 100 * c) sampleState (fun _ => rfl)

/-- The busy wait of `measure_half_period()` over a trace of poll
observations. Each trace entry is the `zero_cross` flag as seen by one
test of the while loop together with the value `micros()` returns there; a
raised flag is consumed (cleared) and its timestamp recorded, and the wait
returns once `need` samples have been collected. `none` models a trace on
which the wait has not yet returned. -/
def measureWait : Nat → List (Bool × Nat) → Option (List Nat)
  | 0, _ => some []
  | _ + 1, [] => none
  | need + 1, (flag, t) :: rest =>
      if flag then (measureWait need rest).map (fun ts => t :: ts)
      else measureWait (need + 1) rest

lemma measureWait_isSome (n : Nat) (tr : List (Bool × Nat)) :
    (measureWait n tr).isSome ↔ n ≤ (tr.filter (fun p => p.1)).length := by
  induction tr generalizing n with
  | nil =>
      cases n <;> simp [measureWait]
  | cons p rest ih =>
      obtain ⟨flag, t⟩ := p
      cases n with
      | zero => simp [measureWait]
      | succ m =>
          cases flag with
          | false => simpa [measureWait] using ih (m + 1)
          | true => simp [measureWait, ih m]

lemma measureWait_spec (n : Nat) (tr : List (Bool × Nat)) :
    ∀ ts, measureWait n tr = some ts →
      ts = ((tr.filter (fun p => p.1)).map (fun p => p.2)).take n ∧
      ts.length = n := by
  induction tr generalizing n with
  | nil =>
      intro ts h
      cases n with
      | zero =>
          have h0 : measureWait 0 ([] : List (Bool × Nat)) = some [] := rfl
          rw [h0] at h
          have hts : ts = [] := (Option.some_inj.mp h).symm
          subst hts
          simp
      | succ m => exact absurd h (by simp [measureWait])
  | cons p rest ih =>
      obtain ⟨flag, t⟩ := p
      intro ts h
      cases n with
      | zero =>
          have h0 : measureWait 0 ((flag, t) :: rest) = some [] := rfl
          rw [h0] at h
          have hts : ts = [] := (Option.some_inj.mp h).symm
          subst hts
          simp
      | succ m =>
          by_cases hf : flag = true
          · subst hf
            have hdef : measureWait (m + 1) ((true, t) :: rest) =
                (measureWait m rest).map (fun ts => t :: ts) := by
              simp [measureWait]
            rw [hdef, Option.map_eq_some'] at h
            obtain ⟨ts0, h0, h1⟩ := h
            obtain ⟨h2, h3⟩ := ih m ts0 h0
            subst h1
            have hlen : m ≤ (rest.filter (fun p => p.1)).length :=
              (measureWait_isSome m rest).mp (by simp [h0])
            simp [h2, h3, hlen]
          · have hf' : flag = false := by simpa using hf
            subst hf'
            have hdef : measureWait (m + 1) ((false, t) :: rest) =
                measureWait (m + 1) rest := by
              simp [measureWait]
            rw [hdef] at h
            simpa using ih (m + 1) ts h

/-- C7: the busy wait returns exactly when the zero cross signal is raised
at least four times along the trace, and on return it has recorded exactly
the first four raised timestamps; on a trace with fewer than four raised
flags, in particular with none, it has not returned. -/
theorem measureWait_four (tr : List (Bool × Nat)) :
    ((measureWait 4 tr).isSome ↔ 4 ≤ (tr.filter (fun p => p.1)).length) ∧
    (∀ ts, measureWait 4 tr = some ts →
      ts = ((tr.filter (fun p => p.1)).map (fun p => p.2)).take 4 ∧
      ts.length = 4) :=
  ⟨measureWait_isSome 4 tr, measureWait_spec 4 tr⟩

/-- A concrete poll trace with five raised zero cross flags, used to
instantiate the busy wait theorem. -/
def sampleTrace : List (Bool × Nat) :=
  [(true, 10), (false, 11), (true, 20), (true, 30), (true, 40), (true, 50)]

/-- Witness for C7 on a concrete trace with five raised flags: the wait
returns, and the recorded samples are the first four raised timestamps. -/
theorem measureWait_four_witness :
    ([10, 20, 30, 40] =
      ((sampleTrace.filter (fun p => p.1)).map (fun p => p.2)).take 4) ∧
    (measureWait 4 sampleTrace).isSome :=
  ⟨((measureWait_four sampleTrace).2 [10, 20, 30, 40] (by decide)).1,
    ((measureWait_four sampleTrace).1).mpr (by decide)⟩

lemma powerMapAt_lt_aux : ∀ i : Fin 256, powerMapAt i.1 < 256 := by decide

lemma powerMapAt_lt (i : Nat) : powerMapAt i < 256 := by
  rcases Nat.lt_or_ge i 256 with h | h
  · exact powerMapAt_lt_aux ⟨i, h⟩
  · have hlen : PowerMap.length ≤ i := by
      rw [powerMap_length]
      exact h
    unfold powerMapAt
    rw [List.getD_eq_default _ _ hlen]
    decide

/-- C10: every table value is below `Resolution = 256`; hence every fire
step the loop publishes is below `Resolution`, and for any such fire step
the actuator at the matching counter asserts the line (the never-assert
branch for fire step `Resolution` is unreachable, so even fire step 255
still produces a gate pulse). -/
theorem fire_steps_below_resolution :
    (∀ v ∈ PowerMap, v < DimRes) ∧
    (∀ now t0 t1 t2 t3 analogRead s, (∀ k c : Nat, analogRead k c ≤ 1023) →
      ∀ i, i < 4 →
        (loop now t0 t1 t2 t3 analogRead s).FireTriac.getD i 0 < DimRes) ∧
    (∀ f pin, f < DimRes →
      Action.setHigh pin ∈ fire_triac f f pin ∧ fire_triac f f pin ≠ []) := by
  refine ⟨by decide, ?_, ?_⟩
  · intro now t0 t1 t2 t3 analogRead s _ i hi
    show DimRes > _
    unfold DimRes
    interval_cases i <;> simpa [loop] using powerMapAt_lt _
  · intro f pin hf
    have hne : f ≠ DimRes := Nat.ne_of_lt hf
    constructor
    · simp [fire_triac, hne]
    · simp [fire_triac, hne]

/-- Witness for C10: with all inputs at the minimum level 0, the published
fire step for channel 0 is 255, still below `Resolution`, and the actuator
at fire step 255 asserts pin 3. -/
theorem fire_steps_below_resolution_witness :
    ((loop 0 0 0 0 0 (fun _ _ => 0) sampleState).FireTriac.getD 0 0 < DimRes) ∧
    Action.setHigh 3 ∈ fire_triac 255 255 3 :=
  ⟨fire_steps_below_resolution.2.1 0 0 0 0 0 (fun _ _ => 0) sampleState
      (fun _ _ => Nat.zero_le 1023) 0 (by decide),
    (fire_steps_below_resolution.2.2 255 3 (by decide)).1⟩

end ACLight
